import Mathlib

/-
Verification development for the bricknil hub-lifecycle orchestrator
(`bricknil/bricknil.py` of the lolligerjoj/bricknil repository).

The embedding models:
  - the `attach` class-decorator and its wrapper function (lines 39-95),
  - the orchestrator coroutines `initialize` (97-104) and `finalize` (108-123),
  - the entry points `run` (125-148) and `start` (152-181),
  - the registration / callback-check / port-map behavior of `Hub.attach_sensor`
    and the BLE command queue `BLEventQ`, which live in `hub.py` / `ble_queue.py`
    (not part of the given sources) and are therefore modelled from the spec.

Side effects are made explicit: every embedded operation returns the list of
observable events it performs (in order) together with an optional Python
exception; `none` means normal return, `some e` means the exception `e`
propagates to the caller.
-/

/-- Observable events performed by the embedded code, in program order. -/
inductive Event where
  /-- a `Peripheral` subclass is instantiated by the attach wrapper -/
  | newPeripheral (pname : String)
  /-- the decorated Hub subclass constructor body runs, with the caller's argument -/
  | newHub (args : String)
  /-- a `message_debug` log call -/
  | debugMsg
  /-- `attach_sensor` registered the named peripheral on the hub instance -/
  | attached (pname : String)
  /-- `hub.connect()` was called -/
  | connect (hub : Nat)
  /-- `hub.initialize()` was called -/
  | hubInit (hub : Nat)
  /-- `hub.finalize()` was called -/
  | hubFin (hub : Nat)
  /-- `hub.disconnect()` was called -/
  | hubDisc (hub : Nat)
  /-- `hub.message_info(pprint.pformat(hub.port_info))` diagnostics -/
  | portInfo (hub : Nat)
  /-- `BLEventQ.instance.disconnect_all()` was called -/
  | disconnectAll
  /-- `get_event_loop()` was called -/
  | getEventLoop
  /-- `warnings.warn(..., DeprecationWarning)` was executed -/
  | deprecationWarning
  /-- `spawn(hub.run())` created a background task for the hub -/
  | spawnRun (hub : Nat)
  /-- the background task of the hub was awaited to completion -/
  | awaitTask (hub : Nat)
deriving DecidableEq

/-- Python exceptions that the embedded code can raise. -/
inductive PyErr where
  | typeError
  | nameError
  | configurationError
  | connectionError
  | hubInitError
  | finalizeError
  | disconnectError
deriving DecidableEq

/-- One registered hub, abstracted to what the orchestrator observes: its unique
id, whether each of its four lifecycle coroutines returns normally (`true`) or
raises (`false`), and its `query_port_info` flag.  The bodies of these
coroutines live in `hub.py`, outside the given sources; per spec section 4.3
each of them may raise (for example `connect()` raises `ConnectionError` when
the device cannot be reached). -/
structure HubSpec where
  id : Nat
  connectOk : Bool
  initOk : Bool
  finOk : Bool
  discOk : Bool
  query_port_info : Bool
deriving DecidableEq

/-- Embedding of `initialize()` (bricknil.py lines 97-104): iterate the hub
registry in order, awaiting `hub.connect()` then `hub.initialize()`; an
exception from either call aborts the loop and propagates. -/
def initializeHubs : List HubSpec → List Event × Option PyErr
  | [] => ([], none)
  | h :: rest =>
    if h.connectOk then
      if h.initOk then
        let r := initializeHubs rest
        (Event.connect h.id :: Event.hubInit h.id :: r.1, r.2)
      else ([Event.connect h.id, Event.hubInit h.id], some PyErr.hubInitError)
    else ([Event.connect h.id], some PyErr.connectionError)

/-- The event trace of a fully successful startup pass: `connect` then
`initialize` for each hub, in registry order. -/
def connectInitEvents : List HubSpec → List Event
  | [] => []
  | h :: rest => Event.connect h.id :: Event.hubInit h.id :: connectInitEvents rest

theorem connectInitEvents_append (l1 l2 : List HubSpec) :
    connectInitEvents (l1 ++ l2) = connectInitEvents l1 ++ connectInitEvents l2 := by
  induction l1 with
  | nil => simp [connectInitEvents]
  | cons h rest ih => simp [connectInitEvents, ih]

theorem connect_not_mem_connectInitEvents (i : Nat) (hubs : List HubSpec)
    (h : i ∉ hubs.map HubSpec.id) :
    Event.connect i ∉ connectInitEvents hubs := by
  induction hubs with
  | nil => simp [connectInitEvents]
  | cons g rest ih =>
    simp only [List.map_cons, List.mem_cons, not_or] at h
    simp only [connectInitEvents, List.mem_cons]
    intro hmem
    rcases hmem with h1 | h2 | h3
    · exact h.1 (by injection h1)
    · exact Event.noConfusion h2
    · exact ih h.2 h3

theorem initializeHubs_all_ok (hubs : List HubSpec)
    (h : ∀ g ∈ hubs, g.connectOk = true ∧ g.initOk = true) :
    initializeHubs hubs = (connectInitEvents hubs, none) := by
  induction hubs with
  | nil => rfl
  | cons g rest ih =>
    have hg := h g (List.mem_cons_self g rest)
    have hr : ∀ x ∈ rest, x.connectOk = true ∧ x.initOk = true :=
      fun x hx => h x (List.mem_cons_of_mem g hx)
    simp [initializeHubs, connectInitEvents, hg.1, hg.2, ih hr]

theorem initializeHubs_abort (pre : List HubSpec) (h : HubSpec) (post : List HubSpec)
    (hpre : ∀ g ∈ pre, g.connectOk = true ∧ g.initOk = true) (hc : h.connectOk = false) :
    initializeHubs (pre ++ h :: post)
      = (connectInitEvents pre ++ [Event.connect h.id], some PyErr.connectionError) := by
  induction pre with
  | nil => simp [initializeHubs, hc, connectInitEvents]
  | cons g rest ih =>
    have hg := hpre g (List.mem_cons_self g rest)
    have hr : ∀ x ∈ rest, x.connectOk = true ∧ x.initOk = true :=
      fun x hx => hpre x (List.mem_cons_of_mem g hx)
    simp [initializeHubs, connectInitEvents, hg.1, hg.2, ih hr]

/-- Claim C2: `initialize()` iterates the hub registry in registration order,
awaiting each hub's `connect()` then `initialize()` before touching the next
hub; and if the k-th hub's `connect()` raises, no later hub's `connect()` is
ever called and the failure propagates to the caller. -/
theorem claim_C2_initializeHubs_order_and_abort :
    (∀ hubs : List HubSpec,
        (∀ g ∈ hubs, g.connectOk = true ∧ g.initOk = true) →
        initializeHubs hubs = (connectInitEvents hubs, none))
    ∧ (∀ (pre : List HubSpec) (h : HubSpec) (post : List HubSpec),
        (∀ g ∈ pre, g.connectOk = true ∧ g.initOk = true) →
        h.connectOk = false →
        initializeHubs (pre ++ h :: post)
            = (connectInitEvents pre ++ [Event.connect h.id], some PyErr.connectionError)
        ∧ ∀ g ∈ post, g.id ∉ pre.map HubSpec.id → g.id ≠ h.id →
            Event.connect g.id ∉ (initializeHubs (pre ++ h :: post)).1) := by
  constructor
  · exact initializeHubs_all_ok
  · intro pre h post hpre hc
    have he := initializeHubs_abort pre h post hpre hc
    refine ⟨he, ?_⟩
    intro g _ hg1 hg2
    rw [he]
    simp only [List.mem_append, List.mem_singleton, not_or]
    exact ⟨connect_not_mem_connectInitEvents g.id pre hg1,
           fun hbad => hg2 (by injection hbad)⟩

/-- A hub whose whole lifecycle succeeds. -/
def hubA : HubSpec := ⟨1, true, true, true, true, false⟩

/-- A hub whose `connect()` raises `ConnectionError`. -/
def hubB : HubSpec := ⟨2, false, true, true, true, false⟩

/-- A hub whose whole lifecycle succeeds and that requests port info. -/
def hubC : HubSpec := ⟨3, true, true, true, true, true⟩

theorem claim_C2_witness :
    initializeHubs [hubA, hubC] = (connectInitEvents [hubA, hubC], none)
    ∧ initializeHubs [hubA, hubB, hubC]
        = (connectInitEvents [hubA] ++ [Event.connect 2], some PyErr.connectionError)
    ∧ Event.connect 3 ∉ (initializeHubs [hubA, hubB, hubC]).1 := by
  refine ⟨claim_C2_initializeHubs_order_and_abort.1 [hubA, hubC] (by decide), ?_, ?_⟩
  · exact (claim_C2_initializeHubs_order_and_abort.2 [hubA] hubB [hubC]
      (by decide) (by decide)).1
  · exact (claim_C2_initializeHubs_order_and_abort.2 [hubA] hubB [hubC]
      (by decide) (by decide)).2 hubC (by decide) (by decide) (by decide)

/-- Embedding of the first loop of `finalize()` (bricknil.py lines 112-114):
for each registered hub, await `hub.finalize()` then `hub.disconnect()`; an
exception from either call aborts the loop and propagates. -/
def finalizeHubsLoop : List HubSpec → List Event × Option PyErr
  | [] => ([], none)
  | h :: rest =>
    if h.finOk then
      if h.discOk then
        let r := finalizeHubsLoop rest
        (Event.hubFin h.id :: Event.hubDisc h.id :: r.1, r.2)
      else ([Event.hubFin h.id, Event.hubDisc h.id], some PyErr.disconnectError)
    else ([Event.hubFin h.id], some PyErr.finalizeError)

/-- The event trace of a fully successful teardown pass over the registry. -/
def finDiscEvents : List HubSpec → List Event
  | [] => []
  | h :: rest => Event.hubFin h.id :: Event.hubDisc h.id :: finDiscEvents rest

/-- Embedding of the port-info loop of `finalize()` (lines 117-119): emit the
diagnostic only for hubs whose `query_port_info` flag is set, in registry
order. -/
def portInfoEvents : List HubSpec → List Event
  | [] => []
  | h :: rest =>
    if h.query_port_info then Event.portInfo h.id :: portInfoEvents rest
    else portInfoEvents rest

/-- Embedding of `finalize()` (bricknil.py lines 108-123): the per-hub teardown
loop, then the port-info loop, then `BLEventQ.instance.disconnect_all()`.
There is no try/finally in the source: if the per-hub loop raises, the rest of
the body never runs and the exception propagates. -/
def finalizeHubs (hubs : List HubSpec) : List Event × Option PyErr :=
  match finalizeHubsLoop hubs with
  | (tr, some e) => (tr, some e)
  | (tr, none) => (tr ++ portInfoEvents hubs ++ [Event.disconnectAll], none)

theorem finalizeHubsLoop_all_ok (hubs : List HubSpec)
    (h : ∀ g ∈ hubs, g.finOk = true ∧ g.discOk = true) :
    finalizeHubsLoop hubs = (finDiscEvents hubs, none) := by
  induction hubs with
  | nil => rfl
  | cons g rest ih =>
    have hg := h g (List.mem_cons_self g rest)
    have hr : ∀ x ∈ rest, x.finOk = true ∧ x.discOk = true :=
      fun x hx => h x (List.mem_cons_of_mem g hx)
    simp [finalizeHubsLoop, finDiscEvents, hg.1, hg.2, ih hr]

theorem disconnectAll_not_mem_finDiscEvents (hubs : List HubSpec) :
    Event.disconnectAll ∉ finDiscEvents hubs := by
  induction hubs with
  | nil => simp [finDiscEvents]
  | cons g rest ih =>
    simp only [finDiscEvents, List.mem_cons]
    intro hmem
    rcases hmem with h1 | h2 | h3
    · exact Event.noConfusion h1
    · exact Event.noConfusion h2
    · exact ih h3

theorem disconnectAll_not_mem_portInfoEvents (hubs : List HubSpec) :
    Event.disconnectAll ∉ portInfoEvents hubs := by
  induction hubs with
  | nil => simp [portInfoEvents]
  | cons g rest ih =>
    by_cases hq : g.query_port_info
    · simp only [portInfoEvents, hq, if_true, List.mem_cons]
      intro hmem
      rcases hmem with h1 | h2
      · exact Event.noConfusion h1
      · exact ih h2
    · simpa only [portInfoEvents, hq, if_false] using ih

theorem disconnectAll_not_mem_finalizeHubsLoop (hubs : List HubSpec) :
    Event.disconnectAll ∉ (finalizeHubsLoop hubs).1 := by
  induction hubs with
  | nil => simp [finalizeHubsLoop]
  | cons g rest ih =>
    by_cases hf : g.finOk
    · by_cases hd : g.discOk
      · simp only [finalizeHubsLoop, hf, hd, if_true, List.mem_cons]
        intro hmem
        rcases hmem with h1 | h2 | h3
        · exact Event.noConfusion h1
        · exact Event.noConfusion h2
        · exact ih h3
      · simp [finalizeHubsLoop, hf, hd]
    · simp [finalizeHubsLoop, hf]

/-- Claim C5: `finalize()` performs its steps in order: per hub (in registry
order) `finalize()` then `disconnect()`, then the port-info diagnostics only
for hubs with the `query_port_info` flag, and last of all `disconnect_all()`
exactly once.  Stated on the run in which every hub teardown call returns
normally. -/
theorem claim_C5_finalizeHubs_step_order (hubs : List HubSpec)
    (h : ∀ g ∈ hubs, g.finOk = true ∧ g.discOk = true) :
    finalizeHubs hubs
      = (finDiscEvents hubs ++ portInfoEvents hubs ++ [Event.disconnectAll], none)
    ∧ (finalizeHubs hubs).1.count Event.disconnectAll = 1 := by
  have hloop := finalizeHubsLoop_all_ok hubs h
  have heq : finalizeHubs hubs
      = (finDiscEvents hubs ++ portInfoEvents hubs ++ [Event.disconnectAll], none) := by
    simp [finalizeHubs, hloop]
  refine ⟨heq, ?_⟩
  rw [heq]
  simp only [List.count_append]
  rw [List.count_eq_zero.mpr (disconnectAll_not_mem_finDiscEvents hubs),
      List.count_eq_zero.mpr (disconnectAll_not_mem_portInfoEvents hubs)]
  rfl

theorem claim_C5_witness :
    finalizeHubs [hubA, hubC]
      = (finDiscEvents [hubA, hubC] ++ portInfoEvents [hubA, hubC] ++ [Event.disconnectAll],
         none)
    ∧ (finalizeHubs [hubA, hubC]).1.count Event.disconnectAll = 1 :=
  claim_C5_finalizeHubs_step_order [hubA, hubC] (by decide)

/-- A hub whose `finalize()` coroutine raises. -/
def hubBadFin : HubSpec := ⟨7, true, true, false, true, true⟩

/-- Claim C4, counterexample: `finalize()` runs on a registry whose single
hub's own `finalize()` raises; `disconnect_all()` is never executed, because
the source has no cleanup block around the per-hub loop. -/
theorem claim_C4_counterexample :
    (finalizeHubs [hubBadFin]).1 = [Event.hubFin 7]
    ∧ Event.disconnectAll ∉ (finalizeHubs [hubBadFin]).1
    ∧ (finalizeHubs [hubBadFin]).2 = some PyErr.finalizeError := by
  refine ⟨rfl, ?_, rfl⟩
  decide

/-- Claim C4 (amended): `disconnect_all()` is executed — as the very last step
of `finalize()` — whenever every hub's `finalize()` and `disconnect()` return
normally; there is no cleanup block, so when any of those calls raises, the
exception propagates out of `finalize()` and `disconnect_all()` is not
executed. -/
theorem claim_C4_amended_disconnect_all :
    (∀ hubs : List HubSpec,
        (∀ g ∈ hubs, g.finOk = true ∧ g.discOk = true) →
        (finalizeHubs hubs).1.getLast? = some Event.disconnectAll)
    ∧ (∀ hubs : List HubSpec,
        (finalizeHubs hubs).2 ≠ none →
        Event.disconnectAll ∉ (finalizeHubs hubs).1) := by
  constructor
  · intro hubs h
    have hloop := finalizeHubsLoop_all_ok hubs h
    have heq : (finalizeHubs hubs).1
        = finDiscEvents hubs ++ portInfoEvents hubs ++ [Event.disconnectAll] := by
      simp [finalizeHubs, hloop]
    rw [heq]
    simp
  · intro hubs herr
    rcases hcase : finalizeHubsLoop hubs with ⟨tr, e⟩
    cases e with
    | none =>
      exfalso
      apply herr
      simp [finalizeHubs, hcase]
    | some err =>
      have heq : (finalizeHubs hubs).1 = tr := by simp [finalizeHubs, hcase]
      rw [heq]
      have := disconnectAll_not_mem_finalizeHubsLoop hubs
      rw [hcase] at this
      exact this

theorem claim_C4_witness :
    (finalizeHubs [hubA]).1.getLast? = some Event.disconnectAll
    ∧ Event.disconnectAll ∉ (finalizeHubs [hubB, hubBadFin]).1 := by
  refine ⟨claim_C4_amended_disconnect_all.1 [hubA] (by decide), ?_⟩
  exact claim_C4_amended_disconnect_all.2 [hubB, hubBadFin] (by decide)

/-- Calling a Python function object: positional arguments are bound to the
parameters at call time; when the argument count differs from the parameter
count, the call raises `TypeError` and the body never runs. -/
def pyCall (paramCount argCount : Nat) (body : Unit → List Event × Option PyErr) :
    List Event × Option PyErr :=
  if argCount = paramCount then body () else ([], some PyErr.typeError)

/-- Module-level names bound in `bricknil/bricknil.py`: the imports of lines
25-35 and the top-level definitions of the module. -/
def moduleNames : List String :=
  ["logging", "pprint", "sleep", "get_event_loop", "spawn", "partial", "wraps",
   "uuid", "Process", "BLEventQ", "PoweredUpHub", "BoostHub", "Hub",
   "attach", "initialize", "finalize", "run", "start"]

/-- Python name resolution at a use site: a name resolves if it is bound in the
enclosing function scope or at module level (builtins hold none of the names
this file cares about). -/
def resolveName (localNames : List String) (n : String) : Bool :=
  localNames.contains n || moduleNames.contains n

/-- Names bound in the scope of `run` at the call `main(program)` (line 148):
the parameter `program` and the locals `main` and `loop`. -/
def runLocalNames : List String := ["program", "main", "loop"]

/-- Names bound in the scope of `start` at the call `main(program)` (line 181):
the parameter `setup` and the locals `warnings`, `main` and `loop`.  The name
`program` is not among them, nor is it a module-level name. -/
def startLocalNames : List String := ["setup", "warnings", "main", "loop"]

/-- Embedding of the body of the inner `async def main()` of `run` (lines
141-146): `await initialize()`, then `try: await program() finally: await
finalize()`.  The user program is abstracted to the pair of the events it
performs and its outcome.  In a Python try/finally, an exception raised by the
finally block replaces the one raised by the try block. -/
def runMainBody (hubs : List HubSpec) (prog : List Event × Option PyErr) :
    List Event × Option PyErr :=
  match initializeHubs hubs with
  | (ti, some e) => (ti, some e)
  | (ti, none) =>
    let f := finalizeHubs hubs
    (ti ++ prog.1 ++ f.1, f.2.orElse fun _ => prog.2)

/-- Embedding of `run(program)` (bricknil.py lines 125-148).  The body executes
`loop = get_event_loop()` and then `loop.run_until_complete(main(program))`.
Evaluating the argument expression `main(program)` resolves both names and then
calls `main` — which is defined with zero parameters (line 141) — with one
positional argument. -/
def bricknilRun (hubs : List HubSpec) (prog : List Event × Option PyErr) :
    List Event × Option PyErr :=
  if resolveName runLocalNames "program" then
    let c := pyCall 0 1 (fun _ => runMainBody hubs prog)
    (Event.getEventLoop :: c.1, c.2)
  else ([Event.getEventLoop], some PyErr.nameError)

theorem resolveName_run_program : resolveName runLocalNames "program" = true := by decide

/-- Claim C1: the claim says `run(program)` invokes `finalize()` exactly once
even when the program raises.  On the source as written this is false for
every input: `main` is defined with no parameters but invoked as
`main(program)`, so `run` raises `TypeError` right after `get_event_loop()`,
and neither `initialize()`, nor the program, nor `finalize()` ever executes. -/
theorem claim_C1_run_raises_typeerror (hubs : List HubSpec)
    (prog : List Event × Option PyErr) :
    bricknilRun hubs prog = ([Event.getEventLoop], some PyErr.typeError)
    ∧ (∀ i, Event.hubFin i ∉ (bricknilRun hubs prog).1)
    ∧ Event.disconnectAll ∉ (bricknilRun hubs prog).1 := by
  have h1 : resolveName runLocalNames "program" = true := resolveName_run_program
  refine ⟨?_, ?_, ?_⟩
  · simp [bricknilRun, h1, pyCall]
  · intro i
    simp [bricknilRun, h1, pyCall]
  · simp [bricknilRun, h1, pyCall]

/-- Model of each spawned `hub.run()` background task of `start` (lines
173-177): every hub's task is spawned first, then each task is awaited, in
registry order.  Modelled from the spec: the body of `Hub.run` lives in
`hub.py`, outside the given sources, and is opaque here. -/
def hubRunEvents (hubs : List HubSpec) : List Event :=
  hubs.map (fun h => Event.spawnRun h.id) ++ hubs.map (fun h => Event.awaitTask h.id)

/-- Embedding of the body of the inner `async def main()` of `start` (lines
169-179): `await setup()`, `await initialize()`, then `try:` spawn and await
the hub tasks `finally: await finalize()`. -/
def startMainBody (hubs : List HubSpec) (setup : List Event × Option PyErr) :
    List Event × Option PyErr :=
  match setup with
  | (ts, some e) => (ts, some e)
  | (ts, none) =>
    match initializeHubs hubs with
    | (ti, some e) => (ts ++ ti, some e)
    | (ti, none) =>
      let f := finalizeHubs hubs
      (ts ++ ti ++ hubRunEvents hubs ++ f.1, f.2)

/-- Embedding of `start(setup)` (bricknil.py lines 152-181): first
`warnings.warn(..., DeprecationWarning)` executes, then `loop =
get_event_loop()`, then `loop.run_until_complete(main(program))` — whose
argument expression evaluates the name `program`, which is bound neither in
`start` nor at module level, raising `NameError` before `main` is ever
called. -/
def bricknilStart (hubs : List HubSpec) (setup : List Event × Option PyErr) :
    List Event × Option PyErr :=
  if resolveName startLocalNames "program" then
    let c := pyCall 0 1 (fun _ => startMainBody hubs setup)
    (Event.deprecationWarning :: Event.getEventLoop :: c.1, c.2)
  else ([Event.deprecationWarning, Event.getEventLoop], some PyErr.nameError)

theorem resolveName_start_program : resolveName startLocalNames "program" = false := by
  decide

/-- Claim C9: the claim says `start(setup)` awaits the setup coroutine, runs
`initialize()`, spawns each hub's run coroutine, awaits those tasks, and runs
`finalize()` in a cleanup block.  On the source as written this is false for
every input: the call site `loop.run_until_complete(main(program))` references
the name `program`, which is undefined in `start` (its parameter is `setup`),
so `start` raises `NameError` right after the deprecation warning and
`get_event_loop()`; setup, startup, the hub tasks and the teardown never
execute.  (Had the name resolved, the call would still raise `TypeError`,
since `main` is defined with no parameters.) -/
theorem claim_C9_start_raises_nameerror (hubs : List HubSpec)
    (setup : List Event × Option PyErr) :
    bricknilStart hubs setup
      = ([Event.deprecationWarning, Event.getEventLoop], some PyErr.nameError)
    ∧ (∀ i, Event.spawnRun i ∉ (bricknilStart hubs setup).1)
    ∧ (∀ i, Event.hubFin i ∉ (bricknilStart hubs setup).1)
    ∧ Event.disconnectAll ∉ (bricknilStart hubs setup).1 := by
  have h0 : resolveName startLocalNames "program" = false := resolveName_start_program
  refine ⟨?_, ?_, ?_, ?_⟩
  · simp [bricknilStart, h0]
  · intro i
    simp [bricknilStart, h0]
  · intro i
    simp [bricknilStart, h0]
  · simp [bricknilStart, h0]

/-- Claim C10: every call to `start(setup)` executes the `DeprecationWarning`
first — before the setup coroutine could run, before any hub is initialized,
and before the event loop is touched: the warning is the head of the trace,
`get_event_loop` only follows it, and no setup/connect event precedes it (none
occurs at all, since `start` then raises `NameError`). -/
theorem claim_C10_start_warns_first (hubs : List HubSpec)
    (setup : List Event × Option PyErr) :
    (bricknilStart hubs setup).1 = [Event.deprecationWarning, Event.getEventLoop]
    ∧ (bricknilStart hubs setup).1.head? = some Event.deprecationWarning
    ∧ (∀ i, Event.connect i ∉ (bricknilStart hubs setup).1)
    ∧ (∀ i, Event.hubInit i ∉ (bricknilStart hubs setup).1) := by
  have h0 : resolveName startLocalNames "program" = false := resolveName_start_program
  refine ⟨?_, ?_, ?_, ?_⟩
  · simp [bricknilStart, h0]
  · simp [bricknilStart, h0]
  · intro i
    simp [bricknilStart, h0]
  · intro i
    simp [bricknilStart, h0]

/-- A peripheral instance as the attach wrapper creates it: the keyword options
saved at decoration time (name, port, capability list).  Capabilities are the
capability names; the ones whose name begins with "sense" are sensing
capabilities (bricknil.py docstring lines 57-61). -/
structure Peripheral where
  name : String
  port : Nat
  capabilities : List String
deriving DecidableEq

/-- Tests whether a capability name starts with the string "sense" — the
source identifies capabilities that need a callback handler purely by this
prefix test (bricknil.py lines 59-60). -/
def isSensing (c : String) : Bool :=
  match c.data with
  | 's' :: 'e' :: 'n' :: 's' :: 'e' :: _ => true
  | _ => false

/-- Modelled from the spec: the callback method a sensing capability requires
on the owning hub, named by convention from the capability tag (spec section
4.1(c)); the spec's scenario in section 8 pairs capability `sense_temp` with
callback `temp_change`, so the convention strips the `sense_` prefix and
appends `_change`. -/
def callbackFor (c : String) : String :=
  String.mk (c.data.drop 6) ++ "_change"

/-- A hub instance under construction: the user-assigned name, the callback
method names its class defines, and the state `attach_sensor` builds up — the
ordered list of peripherals attached so far, the named instance attributes,
and the port mapping. -/
structure HubInstance where
  hubName : String
  methods : List String
  attachments : List Peripheral
  attrs : List (String × Peripheral)
  portMap : List (Nat × Peripheral)
deriving DecidableEq

/-- Does every sensing capability of `p` have its callback among `ms`? -/
def capsOk (ms : List String) (p : Peripheral) : Bool :=
  p.capabilities.all fun c => !(isSensing c) || ms.contains (callbackFor c)

/-- Insertion into the port mapping: a later peripheral on an already-used
port replaces the earlier entry — the attachment mechanism performs no
validation that the requested port is free (spec sections 4.1 and 9). -/
def portMapInsert : List (Nat × Peripheral) → Nat → Peripheral → List (Nat × Peripheral)
  | [], k, v => [(k, v)]
  | (k1, v1) :: rest, k, v =>
    if k1 = k then (k, v) :: rest else (k1, v1) :: portMapInsert rest k v

/-- Insertion into the named instance attributes, same replacement rule. -/
def attrInsert : List (String × Peripheral) → String → Peripheral → List (String × Peripheral)
  | [], k, v => [(k, v)]
  | (k1, v1) :: rest, k, v =>
    if k1 = k then (k, v) :: rest else (k1, v1) :: attrInsert rest k v

/-- Modelled from the spec: `Hub.attach_sensor` lives in `hub.py`, outside the
given sources.  Per spec section 4.1 it checks that every sensing capability
of the peripheral has its conventionally named callback method on the hub
instance — failing with `ConfigurationError` at construction time when one is
absent — and otherwise registers the peripheral into the hub's port mapping
and under an attribute matching the peripheral's name. -/
def attach_sensor (hub : HubInstance) (p : Peripheral) : Except PyErr HubInstance :=
  if capsOk hub.methods p then
    Except.ok { hub with
      attachments := hub.attachments ++ [p],
      attrs := attrInsert hub.attrs p.name p,
      portMap := portMapInsert hub.portMap p.port p }
  else Except.error PyErr.configurationError

/-- A (possibly already decorated) hub constructor: takes the caller's
argument and returns the construction events plus either the constructed hub
instance or the exception raised. -/
def Ctor := String → List Event × Except PyErr HubInstance

/-- Base constructor of an undecorated Hub subclass whose class body defines
the callback methods `ms`. -/
def baseCtor (ms : List String) : Ctor := fun nm =>
  ([Event.newHub nm], Except.ok ⟨nm, ms, [], [], []⟩)

/-- Embedding of `wrapper_f` inside `attach.__call__` (bricknil.py lines
86-95): instantiate the peripheral with the options saved at decoration time,
call the wrapped constructor with the caller's original arguments, log at
debug level, call `attach_sensor`, and return the hub instance. -/
def attachWrap (p : Peripheral) (ctor : Ctor) : Ctor := fun nm =>
  let r := ctor nm
  match r.2 with
  | Except.error e => (Event.newPeripheral p.name :: r.1, Except.error e)
  | Except.ok o =>
    match attach_sensor o p with
    | Except.error e =>
        (Event.newPeripheral p.name :: r.1 ++ [Event.debugMsg], Except.error e)
    | Except.ok o2 =>
        (Event.newPeripheral p.name :: r.1 ++ [Event.debugMsg, Event.attached p.name],
         Except.ok o2)

/-- A stack of attach decorators over a constructor, the list given in textual
declaration order (first element is the topmost, outermost decorator):
decorators apply bottom-up, so the outermost wraps the result of all the
others. -/
def decorate (specs : List Peripheral) (base : Ctor) : Ctor :=
  specs.foldr attachWrap base

/-- Claim C3: constructing an instance of a hub class decorated with an attach
of a peripheral that has a sensing capability checks the hub instance for the
correspondingly named callback method and raises `ConfigurationError` at
construction time when it is absent; no connection is made in the process. -/
theorem claim_C3_attach_missing_callback (p : Peripheral) (ms : List String)
    (nm : String) (c : String) (hc : c ∈ p.capabilities) (hs : isSensing c = true)
    (hm : ms.contains (callbackFor c) = false) :
    (attachWrap p (baseCtor ms) nm).2 = Except.error PyErr.configurationError
    ∧ ∀ i, Event.connect i ∉ (attachWrap p (baseCtor ms) nm).1 := by
  have hfalse : capsOk ms p = false := by
    cases hq : capsOk ms p with
    | false => rfl
    | true =>
      exfalso
      have := List.all_eq_true.mp hq c hc
      rw [hs, hm] at this
      simp at this
  constructor
  · simp [attachWrap, baseCtor, attach_sensor, hfalse]
  · intro i
    simp [attachWrap, baseCtor, attach_sensor, hfalse]

theorem claim_C3_witness :
    ("sense_temp" ∈ (Peripheral.mk "thermo" 3 ["sense_temp"]).capabilities
      ∧ isSensing "sense_temp" = true
      ∧ (["other_change"].contains (callbackFor "sense_temp")) = false)
    ∧ (attachWrap (Peripheral.mk "thermo" 3 ["sense_temp"]) (baseCtor ["other_change"])
        "myhub").2 = Except.error PyErr.configurationError
    ∧ ∀ i, Event.connect i ∉
        (attachWrap (Peripheral.mk "thermo" 3 ["sense_temp"]) (baseCtor ["other_change"])
          "myhub").1 := by
  refine ⟨⟨by decide, by decide, by decide⟩, ?_⟩
  exact claim_C3_attach_missing_callback (Peripheral.mk "thermo" 3 ["sense_temp"])
    ["other_change"] "myhub" "sense_temp" (by decide) (by decide) (by decide)

/-- The debug-log/registration event pairs that a sequence of `attach_sensor`
calls emits, in the order the calls happen. -/
def attachedEvents : List Peripheral → List Event
  | [] => []
  | p :: rest => Event.debugMsg :: Event.attached p.name :: attachedEvents rest

theorem attachedEvents_append (l1 l2 : List Peripheral) :
    attachedEvents (l1 ++ l2) = attachedEvents l1 ++ attachedEvents l2 := by
  induction l1 with
  | nil => simp [attachedEvents]
  | cons p rest ih => simp [attachedEvents, ih]

theorem decorate_ok (specs : List Peripheral) (ms : List String) (nm : String)
    (hok : ∀ p ∈ specs, capsOk ms p = true) :
    ∃ h : HubInstance,
      decorate specs (baseCtor ms) nm
        = (specs.map (fun p => Event.newPeripheral p.name)
            ++ Event.newHub nm :: attachedEvents specs.reverse, Except.ok h)
      ∧ h.methods = ms ∧ h.attachments = specs.reverse ∧ h.hubName = nm := by
  induction specs with
  | nil => exact ⟨⟨nm, ms, [], [], []⟩, rfl, rfl, rfl, rfl⟩
  | cons p rest ih =>
    obtain ⟨h0, heq, hm, ha, hn⟩ := ih (fun q hq => hok q (List.mem_cons_of_mem p hq))
    have hp : capsOk ms p = true := hok p (List.mem_cons_self p rest)
    have hcaps : capsOk h0.methods p = true := by rw [hm]; exact hp
    refine ⟨⟨h0.hubName, h0.methods, h0.attachments ++ [p],
             attrInsert h0.attrs p.name p, portMapInsert h0.portMap p.port p⟩,
            ?_, hm, ?_, hn⟩
    · show attachWrap p (decorate rest (baseCtor ms)) nm = _
      simp only [attachWrap, heq, attach_sensor, hcaps, if_true]
      refine Prod.ext ?_ rfl
      simp [List.reverse_cons, attachedEvents_append, attachedEvents, List.append_assoc]
    · simp [ha, List.reverse_cons]

theorem decorate_two (p1 p2 : Peripheral) (ms : List String) (nm : String)
    (h1 : capsOk ms p1 = true) (h2 : capsOk ms p2 = true) :
    decorate [p1, p2] (baseCtor ms) nm
      = ([Event.newPeripheral p1.name, Event.newPeripheral p2.name, Event.newHub nm,
          Event.debugMsg, Event.attached p2.name, Event.debugMsg, Event.attached p1.name],
         Except.ok ⟨nm, ms, [p2, p1],
           attrInsert (attrInsert [] p2.name p2) p1.name p1,
           portMapInsert (portMapInsert [] p2.port p2) p1.port p1⟩) := by
  simp [decorate, attachWrap, baseCtor, attach_sensor, h1, h2]

/-- The front-drive motor attachment of the example
`42099_4x4_X-treme_Off_Roader.py` line 10 (topmost, outermost decorator). -/
def frontDrive : Peripheral := ⟨"front_drive", 0, []⟩

/-- The rear-drive motor attachment of the example, line 11 (innermost
decorator, closest to the class). -/
def rearDrive : Peripheral := ⟨"rear_drive", 1, []⟩

/-- Claim C6, counterexample: on the example's decorator stack — `front_drive`
declared first (outermost), `rear_drive` second — the constructed hub's
attachment order is `[rear_drive, front_drive]`, the reverse of declaration
order, so the claimed "attachment order equals declaration order" is false;
and stacking two peripherals on the same port is not rejected: construction
succeeds and the later-registered peripheral silently replaces the port
entry. -/
theorem claim_C6_counterexample :
    (decorate [frontDrive, rearDrive] (baseCtor []) "4x4 X-treme Off Roader").2.map
        HubInstance.attachments = Except.ok [rearDrive, frontDrive]
    ∧ [rearDrive, frontDrive] ≠ [frontDrive, rearDrive]
    ∧ (decorate [Peripheral.mk "m1" 0 [], Peripheral.mk "m2" 0 []] (baseCtor []) "h").2.map
        HubInstance.portMap = Except.ok [(0, Peripheral.mk "m1" 0 [])] := by
  exact ⟨rfl, by decide, rfl⟩

/-- Claim C6 (amended): stacked attach decorators each wrap the previous and
apply outermost-last; at construction the peripherals are instantiated in
declaration order, but registered onto the hub instance in reverse declaration
order (innermost first), so the attachment order is the reverse of declaration
order.  Two stacked attachments on distinct ports register both peripherals
under distinct port entries; attaching two peripherals to the same port is not
rejected — both are attached, and the port entry of the later-registered
(outermost) peripheral replaces the earlier one. -/
theorem claim_C6_amended_stack_order :
    (∀ (specs : List Peripheral) (ms : List String) (nm : String),
        (∀ p ∈ specs, capsOk ms p = true) →
        ∃ h : HubInstance,
          decorate specs (baseCtor ms) nm
            = (specs.map (fun p => Event.newPeripheral p.name)
                ++ Event.newHub nm :: attachedEvents specs.reverse, Except.ok h)
          ∧ h.attachments = specs.reverse)
    ∧ (∀ (p1 p2 : Peripheral) (ms : List String) (nm : String),
        capsOk ms p1 = true → capsOk ms p2 = true → p1.port ≠ p2.port →
        ∃ h : HubInstance,
          (decorate [p1, p2] (baseCtor ms) nm).2 = Except.ok h
          ∧ h.portMap = [(p2.port, p2), (p1.port, p1)]
          ∧ h.attachments = [p2, p1])
    ∧ (∀ (p1 p2 : Peripheral) (ms : List String) (nm : String),
        capsOk ms p1 = true → capsOk ms p2 = true → p1.port = p2.port →
        ∃ h : HubInstance,
          (decorate [p1, p2] (baseCtor ms) nm).2 = Except.ok h
          ∧ h.portMap = [(p1.port, p1)]
          ∧ h.attachments = [p2, p1]) := by
  refine ⟨?_, ?_, ?_⟩
  · intro specs ms nm hok
    obtain ⟨h, heq, _, ha, _⟩ := decorate_ok specs ms nm hok
    exact ⟨h, heq, ha⟩
  · intro p1 p2 ms nm h1 h2 hne
    rw [decorate_two p1 p2 ms nm h1 h2]
    refine ⟨_, rfl, ?_, rfl⟩
    simp only [portMapInsert]
    rw [if_neg (fun hh => hne hh.symm)]
  · intro p1 p2 ms nm h1 h2 hsame
    rw [decorate_two p1 p2 ms nm h1 h2]
    refine ⟨_, rfl, ?_, rfl⟩
    simp only [portMapInsert]
    rw [if_pos hsame.symm]

theorem claim_C6_amended_witness :
    (∃ h : HubInstance,
        decorate [frontDrive, rearDrive] (baseCtor []) "4x4"
          = ([frontDrive, rearDrive].map (fun p => Event.newPeripheral p.name)
              ++ Event.newHub "4x4" :: attachedEvents [frontDrive, rearDrive].reverse,
             Except.ok h)
        ∧ h.attachments = [frontDrive, rearDrive].reverse)
    ∧ (∃ h : HubInstance,
        (decorate [frontDrive, rearDrive] (baseCtor []) "4x4").2 = Except.ok h
        ∧ h.portMap = [(rearDrive.port, rearDrive), (frontDrive.port, frontDrive)]
        ∧ h.attachments = [rearDrive, frontDrive])
    ∧ (∃ h : HubInstance,
        (decorate [Peripheral.mk "m1" 0 [], Peripheral.mk "m2" 0 []] (baseCtor []) "h").2
          = Except.ok h
        ∧ h.portMap = [((Peripheral.mk "m1" 0 []).port, Peripheral.mk "m1" 0 [])]
        ∧ h.attachments = [Peripheral.mk "m2" 0 [], Peripheral.mk "m1" 0 []]) := by
  refine ⟨?_, ?_, ?_⟩
  · exact claim_C6_amended_stack_order.1 [frontDrive, rearDrive] [] "4x4" (by decide)
  · exact claim_C6_amended_stack_order.2.1 frontDrive rearDrive [] "4x4"
      (by decide) (by decide) (by decide)
  · exact claim_C6_amended_stack_order.2.2 (Peripheral.mk "m1" 0 [])
      (Peripheral.mk "m2" 0 []) [] "h" (by decide) (by decide) rfl

/-- Claim C7: a single attach decoration performs, in order: (1) the
peripheral is instantiated with the options saved at decoration time, (2) the
hub instance is constructed with the caller's original argument, (3) after the
debug log, the peripheral is registered on the hub — under an attribute
matching the peripheral's name and in the port mapping — and the hub instance
is returned. -/
theorem claim_C7_attach_single_steps (p : Peripheral) (ms : List String) (nm : String)
    (hp : capsOk ms p = true) :
    attachWrap p (baseCtor ms) nm
      = ([Event.newPeripheral p.name, Event.newHub nm, Event.debugMsg,
          Event.attached p.name],
         Except.ok ⟨nm, ms, [p], [(p.name, p)], [(p.port, p)]⟩) := by
  simp [attachWrap, baseCtor, attach_sensor, hp, attrInsert, portMapInsert]

theorem claim_C7_witness :
    attachWrap frontDrive (baseCtor []) "4x4"
      = ([Event.newPeripheral "front_drive", Event.newHub "4x4", Event.debugMsg,
          Event.attached "front_drive"],
         Except.ok ⟨"4x4", [], [frontDrive], [("front_drive", frontDrive)],
           [(0, frontDrive)]⟩) :=
  claim_C7_attach_single_steps frontDrive [] "4x4" (by decide)

/-- An outbound command pending in the shared channel: the hub that enqueued
it and a message identifier. -/
structure Command where
  hub : Nat
  msg : Nat
deriving DecidableEq

/-- Modelled from the spec: the state of the shared CommandChannel (`BLEventQ`
in `ble_queue.py`, outside the given sources) — the FIFO of pending entries,
front first, and the transport writes issued so far, in issue order. -/
structure ChanState where
  queue : List Command
  writes : List Command
deriving DecidableEq

/-- One step of the channel: either some caller enqueues a command (queue
admission never blocks), or the single consumer dequeues the front entry and
performs its transport write.  A consume step on an empty queue does
nothing. -/
inductive ChanOp where
  | enq (c : Command)
  | consume
deriving DecidableEq

/-- Modelled from the spec: the transition function of the CommandChannel; the
single background consumer is the sole writer to the transport. -/
def chanStep (s : ChanState) : ChanOp → ChanState
  | ChanOp.enq c => ⟨s.queue ++ [c], s.writes⟩
  | ChanOp.consume =>
    match s.queue with
    | [] => s
    | c :: rest => ⟨rest, s.writes ++ [c]⟩

/-- The channel state after an arbitrary interleaving of enqueue and consume
steps, starting from the empty channel. -/
def chanExec (ops : List ChanOp) : ChanState :=
  ops.foldl chanStep ⟨[], []⟩

/-- The commands enqueued along an operation sequence, in enqueue order. -/
def enqueuedCmds : List ChanOp → List Command
  | [] => []
  | ChanOp.enq c :: rest => c :: enqueuedCmds rest
  | ChanOp.consume :: rest => enqueuedCmds rest

theorem chanStep_foldl_invariant (ops : List ChanOp) (s : ChanState) :
    (ops.foldl chanStep s).writes ++ (ops.foldl chanStep s).queue
      = s.writes ++ s.queue ++ enqueuedCmds ops := by
  induction ops generalizing s with
  | nil => simp [enqueuedCmds]
  | cons op rest ih =>
    cases op with
    | enq c =>
      rw [List.foldl_cons, ih]
      simp [chanStep, enqueuedCmds, List.append_assoc]
    | consume =>
      rw [List.foldl_cons, ih]
      cases hq : s.queue with
      | nil => simp [chanStep, hq, enqueuedCmds]
      | cons c q => simp [chanStep, hq, enqueuedCmds, List.append_assoc]

theorem take_length_append (a b : List Command) : (a ++ b).take a.length = a := by
  induction a with
  | nil => simp
  | cons x rest ih => simp [ih]

/-- Claim C8: the CommandChannel delivers enqueued commands in strict FIFO
order with exactly-once dispatch: along any interleaving of enqueues and
consumer steps, the transport writes issued are exactly a prefix of the
commands in enqueue order (so whenever one command is enqueued before another,
from any hubs, its write is issued strictly before the other's), every command
is pending or written as often as it was enqueued, and once the queue is
drained the writes are exactly the enqueued commands, once each. -/
theorem claim_C8_channel_fifo (ops : List ChanOp) :
    (chanExec ops).writes ++ (chanExec ops).queue = enqueuedCmds ops
    ∧ (chanExec ops).writes = (enqueuedCmds ops).take (chanExec ops).writes.length
    ∧ (∀ c : Command,
        (enqueuedCmds ops).count c
          = (chanExec ops).writes.count c + (chanExec ops).queue.count c)
    ∧ ((chanExec ops).queue = [] → (chanExec ops).writes = enqueuedCmds ops) := by
  have hinv : (chanExec ops).writes ++ (chanExec ops).queue = enqueuedCmds ops := by
    have := chanStep_foldl_invariant ops ⟨[], []⟩
    simpa [chanExec] using this
  refine ⟨hinv, ?_, ?_, ?_⟩
  · rw [← hinv, take_length_append]
  · intro c
    rw [← hinv, List.count_append]
  · intro hq
    rw [← hinv, hq, List.append_nil]

theorem claim_C8_witness :
    (chanExec [ChanOp.enq ⟨1, 10⟩, ChanOp.enq ⟨2, 20⟩, ChanOp.consume, ChanOp.consume]).queue
        = []
    ∧ (chanExec [ChanOp.enq ⟨1, 10⟩, ChanOp.enq ⟨2, 20⟩, ChanOp.consume,
        ChanOp.consume]).writes
        = enqueuedCmds [ChanOp.enq ⟨1, 10⟩, ChanOp.enq ⟨2, 20⟩, ChanOp.consume,
            ChanOp.consume]
    ∧ (chanExec [ChanOp.enq ⟨1, 10⟩, ChanOp.enq ⟨2, 20⟩, ChanOp.consume,
        ChanOp.consume]).writes = [⟨1, 10⟩, ⟨2, 20⟩] := by
  refine ⟨by decide, ?_, by decide⟩
  exact (claim_C8_channel_fifo [ChanOp.enq ⟨1, 10⟩, ChanOp.enq ⟨2, 20⟩, ChanOp.consume,
    ChanOp.consume]).2.2.2 (by decide)
